import Mathlib

/-!
Verification of the great-circle distance pipeline in `src/main.py`
(repository trulsmoller/great_circle_distance).

Python floats are embedded as real numbers; `math.cos`, `math.sqrt`,
`math.asin` become `Real.cos`, `Real.sqrt`, `Real.arcsin`.  The pandas
DataFrames are embedded as structures that carry the state mutated by the
`inplace=True` operations, and each DataFrame-consuming function returns the
post-call state of its argument next to its result, so that mutation of the
caller's object is observable.  Operations that raise in Python return
`Except.error`.
-/

namespace GreatCircle

/-- Mean Earth radius in kilometres (main.py line 9: `R = 6371`). -/
def R : ℝ := 6371

/-- The intermediate term `a` of `great_circle_distance` (main.py lines 29-31):
`a = 0.5 - cos((lat2 - lat1)*p)/2 + cos(lat1*p) * cos(lat2*p) * (1 - cos((lon2 - lon1)*p))/2`
with `p = pi/180`. -/
noncomputable def hav_a (lat1 lon1 lat2 lon2 : ℝ) : ℝ :=
  let p := Real.pi / 180
  0.5 - Real.cos ((lat2 - lat1) * p) / 2 +
    Real.cos (lat1 * p) * Real.cos (lat2 * p) * (1 - Real.cos ((lon2 - lon1) * p)) / 2

/-- Lines 11-32 of main.py: `return 2 * R * asin(sqrt(a))`.  There is no
clamping of `a` in the source; `sqrt a` is taken directly. -/
noncomputable def great_circle_distance (lat1 lon1 lat2 lon2 : ℝ) : ℝ :=
  2 * R * Real.arcsin (Real.sqrt (hav_a lat1 lon1 lat2 lon2))

/-- Domain-checked variant of `great_circle_distance`: in Python, `math.sqrt`
raises `ValueError` on a negative argument and `math.asin` raises `ValueError`
on an argument outside `[-1, 1]`.  This returns `none` exactly when line 32 of
main.py would raise, and `some` of the computed value otherwise. -/
noncomputable def great_circle_distance_checked (lat1 lon1 lat2 lon2 : ℝ) : Option ℝ :=
  let a := hav_a lat1 lon1 lat2 lon2
  if 0 ≤ a ∧ Real.sqrt a ≤ 1 then some (2 * R * Real.arcsin (Real.sqrt a)) else none

/-- One row of the places DataFrame (a name with its coordinates). -/
structure Point where
  name : String
  latitude : ℝ
  longitude : ℝ

/-- The places DataFrame handed to `create_distances_df`, together with the
piece of its state that line 91 of main.py mutates in place:
`places_df.set_index('Name', drop=True, inplace=True)` turns the `Name`
column into the index of the caller's frame. -/
structure PlacesDF where
  rows : List Point
  nameIsIndex : Bool

/-- One row of the distances DataFrame (main.py lines 119-125). -/
structure DistanceRecord where
  placeA : String
  placeB : String
  distance : ℝ

/-- The distances DataFrame, together with the `diff_mean` column that
`print_results` adds in place (main.py line 162); the column is empty until
that happens and is aligned with `rows` afterwards. -/
structure DistancesDF where
  rows : List DistanceRecord
  diffMean : List ℝ

/-- Result of the summary part of `print_results` (main.py lines 158-173). -/
structure Summary where
  averageDistance : ℝ
  closestRecord : DistanceRecord

/-- Embedding of `itertools.combinations(l, 2)` (main.py line 98): all pairs
`(l[i], l[j])` with `i < j`, in lexicographic position order. -/
def combinations2 {α : Type} : List α → List (α × α)
  | [] => []
  | x :: xs => xs.map (fun y => (x, y)) ++ combinations2 xs

/-- Embedding of the `places_dict[name]` lookups (main.py lines 110-113); the
`(0, 0)` fallback models the dict lookup's partiality and is unreachable for
names drawn from the dict's keys. -/
def lookupCoords (places : List Point) (nm : String) : ℝ × ℝ :=
  match places.find? (fun pt => pt.name == nm) with
  | some pt => (pt.latitude, pt.longitude)
  | none => (0, 0)

/-- One iteration of the loop at main.py lines 103-125: build the record for
one pair of place names. -/
noncomputable def mkRecord (places : List Point) (pr : String × String) : DistanceRecord :=
  ⟨pr.1, pr.2,
    great_circle_distance (lookupCoords places pr.1).1 (lookupCoords places pr.1).2
      (lookupCoords places pr.2).1 (lookupCoords places pr.2).2⟩

/-- Comparison of distance records by their `distance` field. -/
def distLE (r s : DistanceRecord) : Prop := r.distance ≤ s.distance

noncomputable instance : DecidableRel distLE :=
  fun a b => inferInstanceAs (Decidable (a.distance ≤ b.distance))

instance : IsTotal DistanceRecord distLE := ⟨fun a b => le_total a.distance b.distance⟩

instance : IsTrans DistanceRecord distLE := ⟨fun _ _ _ h1 h2 => le_trans h1 h2⟩

/-- Embedding of `pd.DataFrame(list_of_dicts).sort_values(by='distance')`
(main.py line 128), modelled as a stable sort on the `distance` field. -/
noncomputable def sortByDistance (recs : List DistanceRecord) : List DistanceRecord :=
  List.insertionSort distLE recs

/-- Embedding of `create_distances_df` (main.py lines 77-130).  The first
component of the result is the caller's frame after the call: line 91 sets the
`Name` column as index in place.  The iteration order of
`set(places_dict.keys())` at line 98 is modelled as row order.  When no
records were built, `pd.DataFrame([])` at line 128 has no `distance` column
and `sort_values(by='distance')` raises `KeyError`, modelled as `.error`. -/
noncomputable def create_distances_df (places_df : PlacesDF) :
    PlacesDF × Except String (List DistanceRecord) :=
  let pairs := combinations2 (places_df.rows.map Point.name)
  let list_of_dicts := pairs.map (mkRecord places_df.rows)
  let result := if list_of_dicts.isEmpty then
      Except.error "KeyError: distance"
    else
      Except.ok (sortByDistance list_of_dicts)
  ({ places_df with nameIsIndex := true }, result)

/-- Embedding of `distances_df.distance.mean()` (main.py line 159).  On the
empty frame pandas yields NaN; the quotient below is then `0`, and the value
is irrelevant because the row-0 lookup in `print_results` fails first. -/
noncomputable def meanDistance (recs : List DistanceRecord) : ℝ :=
  (recs.map DistanceRecord.distance).sum / recs.length

/-- Comparison of (record, diff_mean) rows by the `diff_mean` column. -/
def diffLE (a b : DistanceRecord × ℝ) : Prop := a.2 ≤ b.2

noncomputable instance : DecidableRel diffLE :=
  fun a b => inferInstanceAs (Decidable (a.2 ≤ b.2))

instance : IsTotal (DistanceRecord × ℝ) diffLE := ⟨fun a b => le_total a.2 b.2⟩

instance : IsTrans (DistanceRecord × ℝ) diffLE := ⟨fun _ _ _ h1 h2 => le_trans h1 h2⟩

/-- Embedding of `sort_values(by='diff_mean', inplace=True)` (main.py line
165); rows move together with their `diff_mean` entries.  The concrete sort
used here is a stable insertion sort, while pandas' default kind='quicksort'
does not guarantee stability; the conclusions proved below about arbitrary
inputs are therefore insensitive to tie order (row multiset, length, and a
minimal `diff_mean` entry at row 0 hold for every sort by the `diff_mean`
column), and the one concrete tie evaluated below has two rows, where numpy
sorts by insertion sort and agrees with this model. -/
noncomputable def sortByDiff (rows : List (DistanceRecord × ℝ)) :
    List (DistanceRecord × ℝ) :=
  List.insertionSort diffLE rows

/-- Embedding of line 162 of main.py,
`distances_df['diff_mean'] = abs(distances_df['distance'] - avg_distance)`:
each row paired with its entry of the added `diff_mean` column. -/
noncomputable def taggedRows (distances_df : DistancesDF) : List (DistanceRecord × ℝ) :=
  distances_df.rows.map (fun r => (r, |r.distance - meanDistance distances_df.rows|))

/-- Embedding of `print_results` (main.py lines 133-173).  The first component
is the caller's frame after the call: line 162 adds the `diff_mean` column and
lines 165-166 re-sort and re-index the frame in place.  The summary reads row
0 of the re-sorted frame (lines 169-171); on an empty frame that lookup
raises `KeyError`, modelled as `.error`. -/
noncomputable def print_results (distances_df : DistancesDF) :
    DistancesDF × Except String Summary :=
  let sorted := sortByDiff (taggedRows distances_df)
  let newDF : DistancesDF := ⟨sorted.map Prod.fst, sorted.map Prod.snd⟩
  let result := match sorted.head? with
    | none => Except.error "KeyError: 0"
    | some r0 => Except.ok ⟨meanDistance distances_df.rows, r0.1⟩
  (newDF, result)

/-! ### Combinatorial facts about `combinations2` -/

theorem length_combinations2 {α : Type} (l : List α) :
    2 * (combinations2 l).length = l.length * (l.length - 1) := by
  induction l with
  | nil => rfl
  | cons x xs ih =>
    simp only [combinations2, List.length_append, List.length_map, List.length_cons,
      Nat.add_sub_cancel]
    cases hn : xs.length with
    | zero =>
      rw [hn] at ih
      omega
    | succ m =>
      rw [hn, Nat.succ_sub_one] at ih
      calc 2 * (m + 1 + (combinations2 xs).length)
          = 2 * (m + 1) + 2 * (combinations2 xs).length := by ring
        _ = 2 * (m + 1) + (m + 1) * m := by rw [ih]
        _ = (m + 1 + 1) * (m + 1) := by ring

theorem mem_combinations2 {α : Type} {l : List α} {pr : α × α}
    (h : pr ∈ combinations2 l) : pr.1 ∈ l ∧ pr.2 ∈ l := by
  induction l with
  | nil => simp [combinations2] at h
  | cons x xs ih =>
    simp only [combinations2, List.mem_append, List.mem_map] at h
    rcases h with ⟨y, hy, rfl⟩ | h
    · exact ⟨List.mem_cons_self x xs, List.mem_cons_of_mem x hy⟩
    · exact ⟨List.mem_cons_of_mem x (ih h).1, List.mem_cons_of_mem x (ih h).2⟩

theorem combinations2_ne {α : Type} {l : List α} (hl : l.Nodup) :
    ∀ pr ∈ combinations2 l, pr.1 ≠ pr.2 := by
  induction l with
  | nil => intro pr hpr; simp [combinations2] at hpr
  | cons x xs ih =>
    obtain ⟨hx, hxs⟩ := List.nodup_cons.mp hl
    intro pr hpr
    simp only [combinations2, List.mem_append, List.mem_map] at hpr
    rcases hpr with ⟨y, hy, rfl⟩ | hpr
    · exact fun h => hx (by rw [show x = y from h]; exact hy)
    · exact ih hxs pr hpr

theorem combinations2_pairwise {α : Type} {l : List α} (hl : l.Nodup) :
    (combinations2 l).Pairwise (fun p q =>
      ¬(p.1 = q.1 ∧ p.2 = q.2) ∧ ¬(p.1 = q.2 ∧ p.2 = q.1)) := by
  induction l with
  | nil => exact List.Pairwise.nil
  | cons x xs ih =>
    obtain ⟨hx, hxs⟩ := List.nodup_cons.mp hl
    refine List.pairwise_append.mpr ⟨?_, ih hxs, ?_⟩
    · rw [List.pairwise_map]
      refine hxs.imp_of_mem ?_
      intro y z hy hz hyz
      refine ⟨fun h => hyz h.2, fun h => hx ?_⟩
      rw [show x = z from h.1]; exact hz
    · intro a ha b hb
      obtain ⟨y, hy, rfl⟩ := List.mem_map.mp ha
      obtain ⟨hb1, hb2⟩ := mem_combinations2 hb
      refine ⟨fun h => hx ?_, fun h => hx ?_⟩
      · rw [show x = b.1 from h.1]; exact hb1
      · rw [show x = b.2 from h.1]; exact hb2

theorem combinations2_ne_nil {α : Type} {l : List α} (h : 2 ≤ l.length) :
    combinations2 l ≠ [] := by
  match l, h with
  | x :: y :: t, _ => simp [combinations2]

/-! ### Behaviour of `create_distances_df` on at least two points -/

theorem create_distances_df_snd (places_df : PlacesDF) (h2 : 2 ≤ places_df.rows.length) :
    (create_distances_df places_df).2 =
      Except.ok (sortByDistance
        ((combinations2 (places_df.rows.map Point.name)).map (mkRecord places_df.rows))) := by
  have hne : combinations2 (places_df.rows.map Point.name) ≠ [] :=
    combinations2_ne_nil (by simpa using h2)
  have hmapne : (combinations2 (places_df.rows.map Point.name)).map
      (mkRecord places_df.rows) ≠ [] := by simp [hne]
  simp only [create_distances_df]
  rw [if_neg (by simp [hmapne])]

/-- Every record produced by `create_distances_df` comes from a pair of
distinct positions of the name list. -/
theorem create_distances_df_mem (places_df : PlacesDF) {recs : List DistanceRecord}
    (h : (create_distances_df places_df).2 = Except.ok recs) :
    ∀ r ∈ recs, ∃ pr ∈ combinations2 (places_df.rows.map Point.name),
      r = mkRecord places_df.rows pr := by
  intro r hr
  simp only [create_distances_df] at h
  by_cases hc : ((combinations2 (places_df.rows.map Point.name)).map
      (mkRecord places_df.rows)).isEmpty = true
  · rw [if_pos hc] at h
    exact absurd h (by simp)
  · rw [if_neg hc] at h
    obtain rfl := (Except.ok.inj h).symm
    have := (List.mem_insertionSort distLE).mp hr
    obtain ⟨pr, hpr, rfl⟩ := List.mem_map.mp this
    exact ⟨pr, hpr, rfl⟩

/-- C2: for a frame of `N ≥ 2` uniquely named points, `create_distances_df`
succeeds with exactly `N*(N-1)/2` records, every record relates two distinct
place names, and no unordered pair of names occurs twice (in particular no
pair appears in both orders). -/
theorem create_distances_df_pair_invariants (places_df : PlacesDF)
    (h2 : 2 ≤ places_df.rows.length)
    (hnodup : (places_df.rows.map Point.name).Nodup) :
    ∃ recs, (create_distances_df places_df).2 = Except.ok recs ∧
      recs.length = places_df.rows.length * (places_df.rows.length - 1) / 2 ∧
      (∀ r ∈ recs, r.placeA ≠ r.placeB) ∧
      recs.Pairwise (fun r s =>
        ¬(r.placeA = s.placeA ∧ r.placeB = s.placeB) ∧
        ¬(r.placeA = s.placeB ∧ r.placeB = s.placeA)) := by
  refine ⟨_, create_distances_df_snd places_df h2, ?_, ?_, ?_⟩
  · have hlen : (sortByDistance ((combinations2 (places_df.rows.map Point.name)).map
        (mkRecord places_df.rows))).length
        = (combinations2 (places_df.rows.map Point.name)).length := by
      simp [sortByDistance]
    have h2l := length_combinations2 (places_df.rows.map Point.name)
    rw [List.length_map] at h2l
    omega
  · intro r hr
    have hr' := (List.mem_insertionSort distLE).mp hr
    obtain ⟨pr, hpr, rfl⟩ := List.mem_map.mp hr'
    exact combinations2_ne hnodup pr hpr
  · have hsym : Symmetric (fun r s : DistanceRecord =>
        ¬(r.placeA = s.placeA ∧ r.placeB = s.placeB) ∧
        ¬(r.placeA = s.placeB ∧ r.placeB = s.placeA)) := by
      intro r s h
      exact ⟨fun hc => h.1 ⟨hc.1.symm, hc.2.symm⟩, fun hc => h.2 ⟨hc.2.symm, hc.1.symm⟩⟩
    have hperm := List.perm_insertionSort distLE
      ((combinations2 (places_df.rows.map Point.name)).map (mkRecord places_df.rows))
    refine (hperm.pairwise_iff (fun hab => hsym hab)).mpr ?_
    rw [List.pairwise_map]
    exact combinations2_pairwise hnodup

/-- Concrete two-point frame for instantiating the pipeline theorems. -/
def dfW : PlacesDF := ⟨[⟨"A", 0, 0⟩, ⟨"B", 0, 90⟩], false⟩

/-- Witness for C2 at a concrete two-point frame. -/
theorem create_distances_df_pair_invariants_witness :
    ∃ recs, (create_distances_df dfW).2 = Except.ok recs ∧
      recs.length = dfW.rows.length * (dfW.rows.length - 1) / 2 ∧
      (∀ r ∈ recs, r.placeA ≠ r.placeB) ∧
      recs.Pairwise (fun r s =>
        ¬(r.placeA = s.placeA ∧ r.placeB = s.placeB) ∧
        ¬(r.placeA = s.placeB ∧ r.placeB = s.placeA)) :=
  create_distances_df_pair_invariants dfW (by decide) (by decide)

/-- C3: for a frame of at least two uniquely named points, the record sequence
returned by `create_distances_df` is non-decreasing in its `distance` field. -/
theorem create_distances_df_sorted_ascending (places_df : PlacesDF)
    (h2 : 2 ≤ places_df.rows.length) :
    ∃ recs, (create_distances_df places_df).2 = Except.ok recs ∧
      recs.Pairwise (fun r s => r.distance ≤ s.distance) := by
  refine ⟨_, create_distances_df_snd places_df h2, ?_⟩
  have hs := List.sorted_insertionSort distLE
    ((combinations2 (places_df.rows.map Point.name)).map (mkRecord places_df.rows))
  exact hs.imp (fun h => h)

/-- Witness for C3 at a concrete two-point frame. -/
theorem create_distances_df_sorted_ascending_witness :
    ∃ recs, (create_distances_df dfW).2 = Except.ok recs ∧
      recs.Pairwise (fun r s => r.distance ≤ s.distance) :=
  create_distances_df_sorted_ascending dfW (by decide)

/-! ### Degenerate inputs and mutation of the caller's frames -/

/-- C6: invoked on fewer than two points, `create_distances_df` does not return
an empty record collection: the pair loop produces no records, so line 128
builds `pd.DataFrame([])`, which has no `distance` column, and
`sort_values(by='distance')` raises `KeyError`. -/
theorem create_distances_df_under_two_raises :
    (create_distances_df ⟨[], false⟩).2 = Except.error "KeyError: distance" ∧
    (create_distances_df ⟨[⟨"Location1", 0, 0⟩], false⟩).2
      = Except.error "KeyError: distance" := by
  exact ⟨rfl, rfl⟩

/-- C7: the summary step of `print_results` fails (the row-0 lookup at lines
169-171 raises) if and only if the record frame handed to it is empty; on
every non-empty frame it returns a summary. -/
theorem print_results_error_iff_empty (ddf : DistancesDF) :
    (∃ e, (print_results ddf).2 = Except.error e) ↔ ddf.rows = [] := by
  have hlen : (sortByDiff (taggedRows ddf)).length = ddf.rows.length := by
    simp [sortByDiff, taggedRows]
  constructor
  · rintro ⟨e, he⟩
    simp only [print_results] at he
    cases hs : sortByDiff (taggedRows ddf) with
    | nil =>
      rw [hs] at hlen
      exact List.length_eq_zero.mp (by simpa using hlen.symm)
    | cons r0 t =>
      rw [hs] at he
      simp at he
  · intro h
    refine ⟨"KeyError: 0", ?_⟩
    simp [print_results, h, sortByDiff, taggedRows, meanDistance]

/-- C9 (amended): the stages communicate through returned collections, but they
do not leave their arguments unchanged: `create_distances_df` sets the `Name`
index on the caller's places frame in place, and `print_results` adds the
`diff_mean` column to the caller's distances frame and re-orders its rows in
place (the rows afterwards are a permutation of the originals, each aligned
with a `diff_mean` entry). -/
theorem pipeline_mutation_behavior :
    (∀ places_df : PlacesDF,
      (create_distances_df places_df).1 = { places_df with nameIsIndex := true }) ∧
    (∀ ddf : DistancesDF,
      ((print_results ddf).1.rows).Perm ddf.rows ∧
      (print_results ddf).1.diffMean.length = ddf.rows.length) := by
  refine ⟨fun df => rfl, fun ddf => ⟨?_, ?_⟩⟩
  · have hperm := List.perm_insertionSort diffLE (taggedRows ddf)
    have hmap := hperm.map Prod.fst
    simpa [print_results, sortByDiff, taggedRows, List.map_map, Function.comp_def] using hmap
  · simp [print_results, sortByDiff, taggedRows]

/-- Concrete one-record distances frame, its `diff_mean` column not yet added. -/
def ddfW : DistancesDF := ⟨[⟨"A", "B", 5⟩], []⟩

/-- C9 counterexample: at concrete inputs, both pipeline stages hand back a
mutated version of the frame they were given, so the data passed in is not
unchanged after the calls. -/
theorem pipeline_mutates_inputs_counterexample :
    (create_distances_df dfW).1 ≠ dfW ∧ (print_results ddfW).1 ≠ ddfW := by
  constructor
  · intro h
    have hfield := congrArg PlacesDF.nameIsIndex h
    simp [create_distances_df, dfW] at hfield
  · intro h
    have hfield := congrArg (fun d => d.diffMean.length) h
    simp [print_results, ddfW, sortByDiff] at hfield

/-! ### The summary selection of `print_results` -/

/-- Specification-level description of row 0 after the `diff_mean` re-sort:
the first element of the list whose `diff_mean` entry is minimal. -/
noncomputable def firstMinDiff : List (DistanceRecord × ℝ) → Option (DistanceRecord × ℝ)
  | [] => none
  | a :: t =>
    match firstMinDiff t with
    | none => some a
    | some b => if a.2 ≤ b.2 then some a else some b

theorem firstMinDiff_cons_none {a : DistanceRecord × ℝ} {t : List (DistanceRecord × ℝ)}
    (h : firstMinDiff t = none) : firstMinDiff (a :: t) = some a := by
  simp only [firstMinDiff, h]

theorem firstMinDiff_cons_some_le {a b : DistanceRecord × ℝ} {t : List (DistanceRecord × ℝ)}
    (h : firstMinDiff t = some b) (hle : a.2 ≤ b.2) : firstMinDiff (a :: t) = some a := by
  simp only [firstMinDiff, h]
  rw [if_pos hle]

theorem firstMinDiff_cons_some_gt {a b : DistanceRecord × ℝ} {t : List (DistanceRecord × ℝ)}
    (h : firstMinDiff t = some b) (hle : ¬ a.2 ≤ b.2) : firstMinDiff (a :: t) = some b := by
  simp only [firstMinDiff, h]
  rw [if_neg hle]

theorem firstMinDiff_eq_none {t : List (DistanceRecord × ℝ)}
    (h : firstMinDiff t = none) : t = [] := by
  cases t with
  | nil => rfl
  | cons a t =>
    exfalso
    cases hfm : firstMinDiff t with
    | none => rw [firstMinDiff_cons_none hfm] at h; simp at h
    | some b =>
      by_cases hle : a.2 ≤ b.2
      · rw [firstMinDiff_cons_some_le hfm hle] at h; simp at h
      · rw [firstMinDiff_cons_some_gt hfm hle] at h; simp at h

theorem head_sortByDiff (l : List (DistanceRecord × ℝ)) :
    (sortByDiff l).head? = firstMinDiff l := by
  induction l with
  | nil => rfl
  | cons a t ih =>
    simp only [sortByDiff, List.insertionSort] at ih ⊢
    cases hs : List.insertionSort diffLE t with
    | nil =>
      rw [hs] at ih
      simp only [List.head?] at ih
      rw [firstMinDiff_cons_none ih.symm]
      rfl
    | cons b s =>
      rw [hs] at ih
      simp only [List.head?] at ih
      by_cases h : a.2 ≤ b.2
      · rw [firstMinDiff_cons_some_le ih.symm h, List.orderedInsert,
          if_pos (show diffLE a b from h), List.head?_cons]
      · rw [firstMinDiff_cons_some_gt ih.symm h, List.orderedInsert,
          if_neg (show ¬ diffLE a b from h), List.head?_cons]

theorem firstMinDiff_mem {l : List (DistanceRecord × ℝ)} {m : DistanceRecord × ℝ}
    (h : firstMinDiff l = some m) : m ∈ l := by
  induction l generalizing m with
  | nil => simp [firstMinDiff] at h
  | cons a t ih =>
    cases hfm : firstMinDiff t with
    | none =>
      rw [firstMinDiff_cons_none hfm] at h
      obtain rfl := (Option.some.inj h).symm
      exact List.mem_cons_self _ _
    | some b =>
      by_cases hle : a.2 ≤ b.2
      · rw [firstMinDiff_cons_some_le hfm hle] at h
        obtain rfl := (Option.some.inj h).symm
        exact List.mem_cons_self _ _
      · rw [firstMinDiff_cons_some_gt hfm hle] at h
        obtain rfl := (Option.some.inj h).symm
        exact List.mem_cons_of_mem a (ih hfm)

theorem firstMinDiff_min {l : List (DistanceRecord × ℝ)} {m : DistanceRecord × ℝ}
    (h : firstMinDiff l = some m) : ∀ y ∈ l, m.2 ≤ y.2 := by
  induction l generalizing m with
  | nil => simp [firstMinDiff] at h
  | cons a t ih =>
    cases hfm : firstMinDiff t with
    | none =>
      rw [firstMinDiff_cons_none hfm] at h
      obtain rfl := (Option.some.inj h).symm
      obtain rfl := firstMinDiff_eq_none hfm
      intro y hy
      obtain rfl := List.mem_singleton.mp hy
      exact le_refl _
    | some b =>
      by_cases hle : a.2 ≤ b.2
      · rw [firstMinDiff_cons_some_le hfm hle] at h
        obtain rfl := (Option.some.inj h).symm
        intro y hy
        rcases List.mem_cons.mp hy with rfl | hy
        · exact le_refl _
        · exact le_trans hle (ih hfm y hy)
      · rw [firstMinDiff_cons_some_gt hfm hle] at h
        obtain rfl := (Option.some.inj h).symm
        intro y hy
        rcases List.mem_cons.mp hy with rfl | hy
        · exact le_of_not_le hle
        · exact ih hfm y hy

/-- Whenever row 0 of the re-sorted frame is the pair `m`, the summary returned
by `print_results` is the mean together with `m`'s record. -/
theorem print_results_summary_eq (ddf : DistancesDF) {m : DistanceRecord × ℝ}
    (hm : firstMinDiff (taggedRows ddf) = some m) :
    (print_results ddf).2 = Except.ok ⟨meanDistance ddf.rows, m.1⟩ := by
  simp only [print_results]
  rw [head_sortByDiff, hm]

/-- C4 (amended): on every non-empty record sequence, arbitrarily ordered, the
summary step returns the mean together with a record whose absolute deviation
from the mean is minimal over all records — no record deviates strictly less.
Which record is selected among several of equal minimal deviation is
implementation-defined: it depends on the tie behaviour of the re-sort at
line 165 (pandas' default quicksort does not guarantee stability), so the one
with the smaller raw distance is not guaranteed to be chosen. -/
theorem print_results_closest_to_mean (ddf : DistancesDF) (hne : ddf.rows ≠ []) :
    ∃ s, (print_results ddf).2 = Except.ok s ∧
      s.averageDistance = meanDistance ddf.rows ∧
      s.closestRecord ∈ ddf.rows ∧
      (∀ r ∈ ddf.rows,
        |s.closestRecord.distance - meanDistance ddf.rows| ≤
          |r.distance - meanDistance ddf.rows|) := by
  obtain ⟨m, hm⟩ : ∃ m, firstMinDiff (taggedRows ddf) = some m := by
    cases hfm : firstMinDiff (taggedRows ddf) with
    | none =>
      have hnil := firstMinDiff_eq_none hfm
      simp only [taggedRows, List.map_eq_nil_iff] at hnil
      exact absurd hnil hne
    | some m => exact ⟨m, rfl⟩
  have hmem := firstMinDiff_mem hm
  obtain ⟨rm, hrm, hrmeq⟩ := List.mem_map.mp hmem
  have hm1 : m.1 = rm := by rw [← hrmeq]
  have hm2 : m.2 = |rm.distance - meanDistance ddf.rows| := by rw [← hrmeq]
  have hok : (print_results ddf).2 = Except.ok ⟨meanDistance ddf.rows, rm⟩ := by
    rw [print_results_summary_eq ddf hm, hm1]
  refine ⟨⟨meanDistance ddf.rows, rm⟩, hok, rfl, hrm, ?_⟩
  intro r hr
  show |rm.distance - meanDistance ddf.rows| ≤ |r.distance - meanDistance ddf.rows|
  have hy : (r, |r.distance - meanDistance ddf.rows|) ∈ taggedRows ddf :=
    List.mem_map.mpr ⟨r, hr, rfl⟩
  have hmin := firstMinDiff_min hm _ hy
  rw [hm2] at hmin
  exact hmin

/-- Witness for C4 (amended) at a concrete one-record frame. -/
theorem print_results_closest_to_mean_witness :
    ∃ s, (print_results ddfW).2 = Except.ok s ∧
      s.averageDistance = meanDistance ddfW.rows ∧
      s.closestRecord ∈ ddfW.rows ∧
      (∀ r ∈ ddfW.rows,
        |s.closestRecord.distance - meanDistance ddfW.rows| ≤
          |r.distance - meanDistance ddfW.rows|) :=
  print_results_closest_to_mean ddfW (by simp [ddfW])

/-- Concrete unsorted two-record frame with a deviation tie: both records
deviate from the mean 20 by 10, and the record with the larger raw distance
comes first. -/
def ddfC4 : DistancesDF := ⟨[⟨"A", "B", 30⟩, ⟨"C", "D", 10⟩], []⟩

/-- C4 counterexample: on the two-record input above — a perfectly valid
non-empty sequence of distance records — the summary selects the record with
distance 30 although the record with distance 10 has the same absolute
deviation from the mean 20, so among tied records the smaller raw distance is
not the one selected. -/
theorem print_results_tiebreak_counterexample :
    (print_results ddfC4).2 = Except.ok ⟨20, ⟨"A", "B", 30⟩⟩ ∧
    |(30 : ℝ) - 20| = |(10 : ℝ) - 20| ∧
    (10 : ℝ) < 30 := by
  have hmean : meanDistance [(⟨"A", "B", 30⟩ : DistanceRecord), ⟨"C", "D", 10⟩] = 20 := by
    simp only [meanDistance, List.map_cons, List.map_nil, List.sum_cons,
      List.sum_nil, List.length_cons, List.length_nil]
    norm_num
  have hmean' : meanDistance ddfC4.rows = 20 := hmean
  have h30 : |(30 : ℝ) - 20| = 10 := by
    rw [show (30 : ℝ) - 20 = 10 by norm_num, abs_of_nonneg (by norm_num : (0:ℝ) ≤ 10)]
  have h10 : |(10 : ℝ) - 20| = 10 := by
    rw [show (10 : ℝ) - 20 = -10 by norm_num, abs_of_nonpos (by norm_num : (-10:ℝ) ≤ 0)]
    norm_num
  have htag : taggedRows ddfC4 =
      [(⟨"A", "B", 30⟩, 10), (⟨"C", "D", 10⟩, 10)] := by
    simp only [taggedRows, ddfC4, List.map_cons, List.map_nil]
    rw [hmean, h30, h10]
  have hfm : firstMinDiff (taggedRows ddfC4) = some (⟨"A", "B", 30⟩, 10) := by
    rw [htag]
    simp [firstMinDiff]
  refine ⟨?_, by rw [h30, h10], by norm_num⟩
  rw [print_results_summary_eq ddfC4 hfm, hmean']

/-! ### The haversine term lies in the unit interval -/

theorem hav_a_key (lat1 lon1 lat2 lon2 : ℝ) :
    4 * hav_a lat1 lon1 lat2 lon2
      = (1 + Real.cos ((lon2 - lon1) * (Real.pi / 180)))
          * (1 - Real.cos (lat2 * (Real.pi / 180) - lat1 * (Real.pi / 180)))
        + (1 - Real.cos ((lon2 - lon1) * (Real.pi / 180)))
          * (1 + (Real.cos (lat1 * (Real.pi / 180)) * Real.cos (lat2 * (Real.pi / 180))
              - Real.sin (lat1 * (Real.pi / 180)) * Real.sin (lat2 * (Real.pi / 180)))) := by
  simp only [hav_a]
  rw [show (lat2 - lat1) * (Real.pi / 180)
      = lat2 * (Real.pi / 180) - lat1 * (Real.pi / 180) by ring, Real.cos_sub]
  ring

theorem hav_a_nonneg (lat1 lon1 lat2 lon2 : ℝ) : 0 ≤ hav_a lat1 lon1 lat2 lon2 := by
  have h1 : 0 ≤ 1 + Real.cos ((lon2 - lon1) * (Real.pi / 180)) := by
    linarith [Real.neg_one_le_cos ((lon2 - lon1) * (Real.pi / 180))]
  have h2 : 0 ≤ 1 - Real.cos (lat2 * (Real.pi / 180) - lat1 * (Real.pi / 180)) := by
    linarith [Real.cos_le_one (lat2 * (Real.pi / 180) - lat1 * (Real.pi / 180))]
  have h3 : 0 ≤ 1 - Real.cos ((lon2 - lon1) * (Real.pi / 180)) := by
    linarith [Real.cos_le_one ((lon2 - lon1) * (Real.pi / 180))]
  have h4 : 0 ≤ 1 + (Real.cos (lat1 * (Real.pi / 180)) * Real.cos (lat2 * (Real.pi / 180))
      - Real.sin (lat1 * (Real.pi / 180)) * Real.sin (lat2 * (Real.pi / 180))) := by
    have hb := Real.neg_one_le_cos (lat1 * (Real.pi / 180) + lat2 * (Real.pi / 180))
    rw [Real.cos_add] at hb
    linarith
  linarith [hav_a_key lat1 lon1 lat2 lon2, mul_nonneg h1 h2, mul_nonneg h3 h4]

theorem hav_a_le_one (lat1 lon1 lat2 lon2 : ℝ) : hav_a lat1 lon1 lat2 lon2 ≤ 1 := by
  have h1 : 0 ≤ 1 + Real.cos ((lon2 - lon1) * (Real.pi / 180)) := by
    linarith [Real.neg_one_le_cos ((lon2 - lon1) * (Real.pi / 180))]
  have h2 : 0 ≤ 1 + Real.cos (lat2 * (Real.pi / 180) - lat1 * (Real.pi / 180)) := by
    linarith [Real.neg_one_le_cos (lat2 * (Real.pi / 180) - lat1 * (Real.pi / 180))]
  have h3 : 0 ≤ 1 - Real.cos ((lon2 - lon1) * (Real.pi / 180)) := by
    linarith [Real.cos_le_one ((lon2 - lon1) * (Real.pi / 180))]
  have h4 : 0 ≤ 1 - (Real.cos (lat1 * (Real.pi / 180)) * Real.cos (lat2 * (Real.pi / 180))
      - Real.sin (lat1 * (Real.pi / 180)) * Real.sin (lat2 * (Real.pi / 180))) := by
    have hb := Real.cos_le_one (lat1 * (Real.pi / 180) + lat2 * (Real.pi / 180))
    rw [Real.cos_add] at hb
    linarith
  have key2 : 4 - 4 * hav_a lat1 lon1 lat2 lon2
      = (1 + Real.cos ((lon2 - lon1) * (Real.pi / 180)))
          * (1 + Real.cos (lat2 * (Real.pi / 180) - lat1 * (Real.pi / 180)))
        + (1 - Real.cos ((lon2 - lon1) * (Real.pi / 180)))
          * (1 - (Real.cos (lat1 * (Real.pi / 180)) * Real.cos (lat2 * (Real.pi / 180))
              - Real.sin (lat1 * (Real.pi / 180)) * Real.sin (lat2 * (Real.pi / 180)))) := by
    have hk := hav_a_key lat1 lon1 lat2 lon2
    rw [show (lat2 * (Real.pi / 180) - lat1 * (Real.pi / 180))
        = lat2 * (Real.pi / 180) - lat1 * (Real.pi / 180) from rfl] at hk ⊢
    rw [Real.cos_sub] at hk ⊢
    linarith [hk]
  linarith [key2, mul_nonneg h1 h2, mul_nonneg h3 h4]

theorem sqrt_hav_a_le_one (lat1 lon1 lat2 lon2 : ℝ) :
    Real.sqrt (hav_a lat1 lon1 lat2 lon2) ≤ 1 := by
  calc Real.sqrt (hav_a lat1 lon1 lat2 lon2)
      ≤ Real.sqrt 1 := Real.sqrt_le_sqrt (hav_a_le_one lat1 lon1 lat2 lon2)
    _ = 1 := Real.sqrt_one

/-- C10: the intermediate term `a` lies in `[0, 1]` for all real inputs, in
range or not, so `sqrt` and `asin` are always applied within their domains
and `great_circle_distance` never raises: the domain-checked variant always
returns the value of the total function. -/
theorem great_circle_distance_total (lat1 lon1 lat2 lon2 : ℝ) :
    0 ≤ hav_a lat1 lon1 lat2 lon2 ∧ hav_a lat1 lon1 lat2 lon2 ≤ 1 ∧
    great_circle_distance_checked lat1 lon1 lat2 lon2
      = some (great_circle_distance lat1 lon1 lat2 lon2) := by
  refine ⟨hav_a_nonneg lat1 lon1 lat2 lon2, hav_a_le_one lat1 lon1 lat2 lon2, ?_⟩
  simp only [great_circle_distance_checked, great_circle_distance]
  rw [if_pos ⟨hav_a_nonneg lat1 lon1 lat2 lon2, sqrt_hav_a_le_one lat1 lon1 lat2 lon2⟩]

/-! ### Characterisation of zero distance for in-range inputs -/

theorem great_circle_distance_nonneg (lat1 lon1 lat2 lon2 : ℝ) :
    0 ≤ great_circle_distance lat1 lon1 lat2 lon2 := by
  have h1 : 0 ≤ Real.arcsin (Real.sqrt (hav_a lat1 lon1 lat2 lon2)) :=
    Real.arcsin_nonneg.mpr (Real.sqrt_nonneg _)
  have hR : (0 : ℝ) ≤ 2 * R := by norm_num [R]
  show 0 ≤ 2 * R * Real.arcsin (Real.sqrt (hav_a lat1 lon1 lat2 lon2))
  exact mul_nonneg hR h1

theorem great_circle_distance_eq_zero_iff (lat1 lon1 lat2 lon2 : ℝ) :
    great_circle_distance lat1 lon1 lat2 lon2 = 0 ↔ hav_a lat1 lon1 lat2 lon2 = 0 := by
  constructor
  · intro h
    have h' : 2 * R * Real.arcsin (Real.sqrt (hav_a lat1 lon1 lat2 lon2)) = 0 := h
    have h2R : (2 : ℝ) * R ≠ 0 := by norm_num [R]
    have harc : Real.arcsin (Real.sqrt (hav_a lat1 lon1 lat2 lon2)) = 0 := by
      rcases mul_eq_zero.mp h' with h'' | h''
      · exact absurd h'' h2R
      · exact h''
    have hsq : Real.sqrt (hav_a lat1 lon1 lat2 lon2) = 0 :=
      Real.arcsin_eq_zero_iff.mp harc
    exact (Real.sqrt_eq_zero (hav_a_nonneg lat1 lon1 lat2 lon2)).mp hsq
  · intro h
    show 2 * R * Real.arcsin (Real.sqrt (hav_a lat1 lon1 lat2 lon2)) = 0
    rw [h, Real.sqrt_zero, Real.arcsin_zero, mul_zero]

theorem cos_lat_nonneg {lat : ℝ} (h1 : -90 ≤ lat) (h2 : lat ≤ 90) :
    0 ≤ Real.cos (lat * (Real.pi / 180)) := by
  refine Real.cos_nonneg_of_neg_pi_div_two_le_of_le ?_ ?_
  · have h := mul_le_mul_of_nonneg_right h1 (by positivity : (0 : ℝ) ≤ Real.pi / 180)
    linarith [h, show (-90 : ℝ) * (Real.pi / 180) = -(Real.pi / 2) by ring]
  · have h := mul_le_mul_of_nonneg_right h2 (by positivity : (0 : ℝ) ≤ Real.pi / 180)
    linarith [h, show (90 : ℝ) * (Real.pi / 180) = Real.pi / 2 by ring]

theorem cos_deg_eq_one_iff_small {d : ℝ} (h1 : -180 ≤ d) (h2 : d ≤ 180) :
    Real.cos (d * (Real.pi / 180)) = 1 ↔ d = 0 := by
  rw [Real.cos_eq_one_iff_of_lt_of_lt]
  · constructor
    · intro h
      rcases mul_eq_zero.mp h with h' | h'
      · exact h'
      · exact absurd h' (by positivity)
    · intro h
      rw [h, zero_mul]
  · have h := mul_le_mul_of_nonneg_right h1 (by positivity : (0 : ℝ) ≤ Real.pi / 180)
    have hpi := Real.pi_pos
    nlinarith [h, show (-180 : ℝ) * (Real.pi / 180) = -Real.pi by ring]
  · have h := mul_le_mul_of_nonneg_right h2 (by positivity : (0 : ℝ) ≤ Real.pi / 180)
    have hpi := Real.pi_pos
    nlinarith [h, show (180 : ℝ) * (Real.pi / 180) = Real.pi by ring]

theorem cos_deg_eq_one_iff_lon {d : ℝ} (h1 : -360 ≤ d) (h2 : d ≤ 360) :
    Real.cos (d * (Real.pi / 180)) = 1 ↔ (d = 0 ∨ d = 360 ∨ d = -360) := by
  constructor
  · intro h
    obtain ⟨n, hn⟩ := (Real.cos_eq_one_iff _).mp h
    have key : (d - n * 360) * (Real.pi / 180) = 0 := by linear_combination -hn
    have hd : d = n * 360 := by
      rcases mul_eq_zero.mp key with h' | h'
      · linarith
      · exact absurd h' (by positivity)
    have hn1 : (-1 : ℝ) ≤ (n : ℝ) := by linarith
    have hn2 : (n : ℝ) ≤ 1 := by linarith
    have hnz : n = -1 ∨ n = 0 ∨ n = 1 := by
      have hcast : (-1 : ℤ) ≤ n ∧ n ≤ 1 := ⟨by exact_mod_cast hn1, by exact_mod_cast hn2⟩
      omega
    rcases hnz with rfl | rfl | rfl
    · right; right; rw [hd]; norm_num
    · left; rw [hd]; norm_num
    · right; left; rw [hd]; norm_num
  · rintro (rfl | rfl | rfl)
    · rw [zero_mul, Real.cos_zero]
    · rw [show (360 : ℝ) * (Real.pi / 180) = 2 * Real.pi by ring, Real.cos_two_pi]
    · rw [show (-360 : ℝ) * (Real.pi / 180) = -(2 * Real.pi) by ring, Real.cos_neg,
        Real.cos_two_pi]

theorem cos_lat_eq_zero_iff {lat : ℝ} (h1 : -90 ≤ lat) (h2 : lat ≤ 90) :
    Real.cos (lat * (Real.pi / 180)) = 0 ↔ (lat = 90 ∨ lat = -90) := by
  constructor
  · intro h
    obtain ⟨k, hk⟩ := Real.cos_eq_zero_iff.mp h
    have key : (lat - (2 * k + 1) * 90) * (Real.pi / 180) = 0 := by
      linear_combination hk
    have hlat : lat = (2 * (k : ℝ) + 1) * 90 := by
      rcases mul_eq_zero.mp key with h' | h'
      · linarith
      · exact absurd h' (by positivity)
    have hk1 : (-1 : ℝ) ≤ 2 * (k : ℝ) + 1 := by linarith
    have hk2 : 2 * (k : ℝ) + 1 ≤ 1 := by linarith
    have hkz : k = 0 ∨ k = -1 := by
      have hcast : (-1 : ℤ) ≤ 2 * k + 1 ∧ 2 * k + 1 ≤ 1 :=
        ⟨by exact_mod_cast hk1, by exact_mod_cast hk2⟩
      omega
    rcases hkz with rfl | rfl
    · left; rw [hlat]; norm_num
    · right; rw [hlat]; norm_num
  · rintro (rfl | rfl)
    · rw [show (90 : ℝ) * (Real.pi / 180) = Real.pi / 2 by ring, Real.cos_pi_div_two]
    · rw [show (-90 : ℝ) * (Real.pi / 180) = -(Real.pi / 2) by ring, Real.cos_neg,
        Real.cos_pi_div_two]

theorem hav_a_eq_zero_iff (lat1 lon1 lat2 lon2 : ℝ)
    (hlat1 : -90 ≤ lat1 ∧ lat1 ≤ 90) (hlat2 : -90 ≤ lat2 ∧ lat2 ≤ 90)
    (hlon1 : -180 ≤ lon1 ∧ lon1 ≤ 180) (hlon2 : -180 ≤ lon2 ∧ lon2 ≤ 180) :
    hav_a lat1 lon1 lat2 lon2 = 0 ↔
      (lat1 = lat2 ∧ (lat1 = 90 ∨ lat1 = -90 ∨ lon1 = lon2 ∨
        lon2 - lon1 = 360 ∨ lon1 - lon2 = 360)) := by
  have ha : hav_a lat1 lon1 lat2 lon2 =
      0.5 - Real.cos ((lat2 - lat1) * (Real.pi / 180)) / 2 +
      Real.cos (lat1 * (Real.pi / 180)) * Real.cos (lat2 * (Real.pi / 180)) *
        (1 - Real.cos ((lon2 - lon1) * (Real.pi / 180))) / 2 := by
    simp only [hav_a]
  have hc1 := cos_lat_nonneg hlat1.1 hlat1.2
  have hc2 := cos_lat_nonneg hlat2.1 hlat2.2
  have hT1nn : 0 ≤ 0.5 - Real.cos ((lat2 - lat1) * (Real.pi / 180)) / 2 := by
    linarith [Real.cos_le_one ((lat2 - lat1) * (Real.pi / 180))]
  have hDnn : 0 ≤ 1 - Real.cos ((lon2 - lon1) * (Real.pi / 180)) := by
    linarith [Real.cos_le_one ((lon2 - lon1) * (Real.pi / 180))]
  have hT2nn : 0 ≤ Real.cos (lat1 * (Real.pi / 180)) * Real.cos (lat2 * (Real.pi / 180)) *
      (1 - Real.cos ((lon2 - lon1) * (Real.pi / 180))) / 2 :=
    div_nonneg (mul_nonneg (mul_nonneg hc1 hc2) hDnn) (by norm_num)
  constructor
  · intro h
    rw [ha] at h
    have hcos1 : Real.cos ((lat2 - lat1) * (Real.pi / 180)) = 1 := by linarith
    have hdlat : lat2 - lat1 = 0 :=
      (cos_deg_eq_one_iff_small (by linarith [hlat1.2, hlat2.1])
        (by linarith [hlat1.1, hlat2.2])).mp hcos1
    have hlat12 : lat1 = lat2 := by linarith
    refine ⟨hlat12, ?_⟩
    have hprod : Real.cos (lat1 * (Real.pi / 180)) * Real.cos (lat2 * (Real.pi / 180)) *
        (1 - Real.cos ((lon2 - lon1) * (Real.pi / 180))) = 0 := by linarith
    rcases mul_eq_zero.mp hprod with hcc | hD0
    · rcases mul_eq_zero.mp hcc with hc0 | hc0
      · rcases (cos_lat_eq_zero_iff hlat1.1 hlat1.2).mp hc0 with h' | h'
        · exact Or.inl h'
        · exact Or.inr (Or.inl h')
      · rcases (cos_lat_eq_zero_iff hlat2.1 hlat2.2).mp hc0 with h' | h'
        · exact Or.inl (by rw [hlat12]; exact h')
        · exact Or.inr (Or.inl (by rw [hlat12]; exact h'))
    · have hcos2 : Real.cos ((lon2 - lon1) * (Real.pi / 180)) = 1 := by linarith
      rcases (cos_deg_eq_one_iff_lon (by linarith [hlon1.2, hlon2.1])
          (by linarith [hlon1.1, hlon2.2])).mp hcos2 with h' | h' | h'
      · exact Or.inr (Or.inr (Or.inl (by linarith)))
      · exact Or.inr (Or.inr (Or.inr (Or.inl h')))
      · exact Or.inr (Or.inr (Or.inr (Or.inr (by linarith))))
  · rintro ⟨hlat12, hcase⟩
    rw [ha, show lat2 - lat1 = 0 by linarith, zero_mul, Real.cos_zero]
    rcases hcase with h' | h' | h' | h' | h'
    · rw [h', show (90 : ℝ) * (Real.pi / 180) = Real.pi / 2 by ring, Real.cos_pi_div_two]
      ring
    · rw [h', show (-90 : ℝ) * (Real.pi / 180) = -(Real.pi / 2) by ring, Real.cos_neg,
        Real.cos_pi_div_two]
      ring
    · rw [show lon2 - lon1 = 0 by linarith, zero_mul, Real.cos_zero]
      ring
    · rw [h', show (360 : ℝ) * (Real.pi / 180) = 2 * Real.pi by ring, Real.cos_two_pi]
      ring
    · rw [show lon2 - lon1 = -360 by linarith,
        show (-360 : ℝ) * (Real.pi / 180) = -(2 * Real.pi) by ring, Real.cos_neg,
        Real.cos_two_pi]
      ring

/-- C8 (amended): for in-range inputs the result is nonnegative, and it equals
0 exactly when the two inputs denote the same geographic location: equal
latitudes, and either that common latitude is a pole (90 or -90, where the
longitudes are irrelevant) or the longitudes coincide or differ by a full turn
of 360 degrees (the antimeridian, 180 = -180).  Zero distance therefore does
not imply equality of the coordinate pairs. -/
theorem great_circle_distance_nonneg_and_zero_iff (lat1 lon1 lat2 lon2 : ℝ)
    (hlat1 : -90 ≤ lat1 ∧ lat1 ≤ 90) (hlat2 : -90 ≤ lat2 ∧ lat2 ≤ 90)
    (hlon1 : -180 ≤ lon1 ∧ lon1 ≤ 180) (hlon2 : -180 ≤ lon2 ∧ lon2 ≤ 180) :
    0 ≤ great_circle_distance lat1 lon1 lat2 lon2 ∧
    (great_circle_distance lat1 lon1 lat2 lon2 = 0 ↔
      (lat1 = lat2 ∧ (lat1 = 90 ∨ lat1 = -90 ∨ lon1 = lon2 ∨
        lon2 - lon1 = 360 ∨ lon1 - lon2 = 360))) :=
  ⟨great_circle_distance_nonneg lat1 lon1 lat2 lon2,
    (great_circle_distance_eq_zero_iff lat1 lon1 lat2 lon2).trans
      (hav_a_eq_zero_iff lat1 lon1 lat2 lon2 hlat1 hlat2 hlon1 hlon2)⟩

/-- Witness for C8 (amended) at the concrete in-range input (0,0) and (0,0). -/
theorem great_circle_distance_nonneg_and_zero_iff_witness :
    0 ≤ great_circle_distance 0 0 0 0 ∧
    (great_circle_distance 0 0 0 0 = 0 ↔
      ((0 : ℝ) = 0 ∧ ((0 : ℝ) = 90 ∨ (0 : ℝ) = -90 ∨ (0 : ℝ) = 0 ∨
        (0 : ℝ) - 0 = 360 ∨ (0 : ℝ) - 0 = 360))) :=
  great_circle_distance_nonneg_and_zero_iff 0 0 0 0 (by norm_num) (by norm_num)
    (by norm_num) (by norm_num)

/-- C8 counterexample: the in-range inputs (90, 0) and (90, 100) are two
distinct coordinate pairs (their longitudes differ), yet the computed
distance is 0, so zero distance does not characterise coincident coordinate
pairs. -/
theorem great_circle_distance_pole_counterexample :
    great_circle_distance 90 0 90 100 = 0 ∧ (0 : ℝ) ≠ 100 := by
  constructor
  · have ha : hav_a 90 0 90 100 = 0 := by
      simp only [hav_a]
      rw [show ((90 : ℝ) - 90) * (Real.pi / 180) = 0 by ring, Real.cos_zero,
        show (90 : ℝ) * (Real.pi / 180) = Real.pi / 2 by ring, Real.cos_pi_div_two]
      ring
    show 2 * R * Real.arcsin (Real.sqrt (hav_a 90 0 90 100)) = 0
    rw [ha, Real.sqrt_zero, Real.arcsin_zero, mul_zero]
  · norm_num

end GreatCircle
